import Mathlib

/-!
Verification of the Outlook-automation repository (src/main.py) against its
natural-language specification.

The embedding models the two components of the program:

* `Outlook`-style query operations (`get_last_email`, `get_emails_from_date`,
  `get_emails_with_attachments`) and the constructor's folder/account
  resolution (`outlookInit`);
* the `InboxEvents` notification sink (`OnItemAdd`, `save_attachments`,
  `save_body`).

Modelling conventions:

* Times are minutes since an arbitrary epoch, in UTC, at minute resolution
  (`Int`).  Calendar dates are day numbers `d`; the naive datetime
  `d 00:00` is the instant `d * 1440`.
* The external COM message collection is a `List Message`.  A collection
  access that can raise is modelled by `Enumeration`: either the whole list
  is enumerated (`ok`), or enumeration raises after yielding some messages
  (`failAfter`).
* The filesystem is modelled by fault injection: a function from
  (directory, filename) to `Option String`, `some err` meaning the write
  raises `err`.
* Python's single-character `str.replace(c, '')`, `str.startswith('.')`,
  `str.lower()` and `str.endswith(suffix)` are modelled character-wise on
  `String.data` (ASCII case folding, which covers the filenames involved).
-/

/-- A message snapshot as read from the external store (src/main.py:
`message.Subject`, `.Body`, `.SenderEmailAddress`, `.ReceivedTime`,
`.Attachments` with the attachments' `FileName`s).  `receivedTime` is the
received instant in UTC minutes. -/
structure Message where
  subject : String
  body : String
  sender : String
  receivedTime : Int
  attachments : List String
deriving DecidableEq, Repr

/-- Enumerating a COM collection either yields the whole item list or
raises after yielding some of the items (also used for a `Restrict` or
`GetLast` call failing, i.e. an unreachable store). -/
inductive Enumeration where
  | ok (msgs : List Message)
  | failAfter (seen : List Message) (err : String)
deriving DecidableEq, Repr

/-- The record each query builds per message (src/main.py lines 179-182 and
213-218): subject, body, sender and the received time (the source formats
the time with `strftime`; the formatting is injective at minute resolution,
so the instant itself is kept). -/
structure EmailRecord where
  subject : String
  body : String
  sender : String
  received_time : Int
deriving DecidableEq, Repr

def toRecord (m : Message) : EmailRecord :=
  { subject := m.subject, body := m.body, sender := m.sender,
    received_time := m.receivedTime }

/-- A value in one of the string-keyed dictionaries `get_last_email`
returns: either a text field or the raw received time. -/
inductive FieldValue where
  | str (s : String)
  | time (t : Int)
deriving DecidableEq, Repr

/-- src/main.py lines 134-141: `get_last_email` returns
`{"subject": ..., "body": ..., "received_time": ...}` built from
`messages.GetLast()`, and on any failure (empty collection — `GetLast`
yields nothing and the attribute access raises — or an unreachable store)
returns the sentinel `{"subject": "", "body": ""}`. -/
def get_last_email (enum : Enumeration) : List (String × FieldValue) :=
  match enum with
  | Enumeration.ok msgs =>
    match msgs.getLast? with
    | some m =>
      [("subject", FieldValue.str m.subject),
       ("body", FieldValue.str m.body),
       ("received_time", FieldValue.time m.receivedTime)]
    | none => [("subject", FieldValue.str ""), ("body", FieldValue.str "")]
  | Enumeration.failAfter _ _ =>
    [("subject", FieldValue.str ""), ("body", FieldValue.str "")]

/-- Minutes per day. -/
def minutesPerDay : Int := 1440

/-- src/main.py line 166: `datetime.replace(tzinfo=pytz.timezone('Europe/Madrid'))`
attaches the zone's first (local-mean-time) offset, about −15 minutes east
of UTC — not the CET/CEST offset.  What the theorems below use is only that
this offset is west of UTC by less than a day, so converting the attached
naive midnight to UTC never changes the calendar date. -/
def pytzReplaceMadridOffset : Int := -15

/-- The `%m/%d/%Y` part of `strftime`: the calendar date (day number) of a
UTC instant. -/
def strftimeDateOnly (u : Int) : Int := Int.fdiv u minutesPerDay

/-- src/main.py line 169: the filter's lower bound.  The naive local
midnight of day `d` is converted to UTC and formatted with
`'%m/%d/%Y 12:00 AM'` — the time of day in the format string is literal
text, so only the date survives, with the time hardcoded to 00:00. -/
def startFilterMin (d : Int) : Int :=
  strftimeDateOnly (d * minutesPerDay - pytzReplaceMadridOffset) * minutesPerDay

/-- src/main.py line 170: the filter's upper bound, from day `d+1` and the
literal time `'11:59 PM'` (minute 1439 of the day). -/
def endFilterMin (d : Int) : Int :=
  strftimeDateOnly ((d + 1) * minutesPerDay - pytzReplaceMadridOffset) * minutesPerDay + 1439

/-- src/main.py lines 160-186: `get_emails_from_date`.  The `Restrict`
filter keeps messages with
`[ReceivedTime] >= start AND [ReceivedTime] <= end`; the `try` block
wraps both the `Restrict` call and the enumeration, and the handler
returns `[]`, so any failure yields the empty list. -/
def get_emails_from_date (enum : Enumeration) (d : Int) : List EmailRecord :=
  match enum with
  | Enumeration.ok msgs =>
    (msgs.filter (fun m =>
      startFilterMin d ≤ m.receivedTime && m.receivedTime ≤ endFilterMin d)).map toRecord
  | Enumeration.failAfter _ _ => []

/-- Python's `s.lower()` (ASCII case folding suffices for the involved
filenames). -/
def lower (s : String) : String := String.mk (s.data.map Char.toLower)

/-- Python's `s.endswith(suffix)`. -/
def endswith (s suffix : String) : Bool := List.isSuffixOf suffix.data s.data

/-- Python's `s.startswith('.')` (single-character test). -/
def startswithDot (s : String) : Bool :=
  match s.data with
  | [] => false
  | c :: _ => c == '.'

/-- src/main.py lines 202-203: prepend `'.'` unless the extension already
starts with it. -/
def normalizeExtension (extension : String) : String :=
  if startswithDot extension then extension else "." ++ extension

/-- src/main.py lines 206-211: the per-message scan — only entered when
`message.Attachments.Count > 0`, and the inner loop breaks at the first
attachment whose lower-cased filename ends with the lower-cased
(normalized) extension. -/
def hasMatchingAttachment (ext : String) (m : Message) : Bool :=
  if m.attachments.length > 0 then
    m.attachments.any (fun a => endswith (lower a) (lower ext))
  else
    false

/-- src/main.py lines 187-221: `get_emails_with_attachments`.  `emails` is
created before the `try` block and returned after the handler, so when the
enumeration raises partway through, the records accumulated so far are
returned (not an empty list). -/
def get_emails_with_attachments (enum : Enumeration) (extension : String) : List EmailRecord :=
  let ext := normalizeExtension extension
  match enum with
  | Enumeration.ok msgs =>
    (msgs.filter (fun m => hasMatchingAttachment ext m)).map toRecord
  | Enumeration.failAfter seen _ =>
    (seen.filter (fun m => hasMatchingAttachment ext m)).map toRecord

/-- An account as enumerated from `namespace.Accounts` (src/main.py line
117): a display name, and the item collection of that account's default
inbox (`found_account.DeliveryStore.GetDefaultFolder(6).Items`). -/
structure StoreAccount where
  displayName : String
  inboxItems : List Message
deriving DecidableEq, Repr

/-- The folder-related state `Outlook.__init__` leaves behind:
`messages` is the collection the query methods read, `sinkMessages` the
collection the `InboxEvents` sink was registered on, `notFoundLogged`
whether the "Account not found" message was printed. -/
structure OutlookState where
  messages : List Message
  sinkMessages : List Message
  notFoundLogged : Bool
deriving DecidableEq, Repr

/-- src/main.py lines 98-122: folder and account resolution in
`Outlook.__init__`.  The event sink is registered (line 112,
`DispatchWithEvents(self.messages, InboxEvents)`) against the default
inbox's collection *before* the account lookup (lines 116-122) may replace
`self.messages`; `next((acc for acc in Accounts if acc.DisplayName ==
account), None)` is the first exact display-name match. -/
def outlookInit (defaultInbox : List Message) (accounts : List StoreAccount)
    (account : Option String) : OutlookState :=
  let sinkMessages := defaultInbox
  match account with
  | none =>
    { messages := defaultInbox, sinkMessages := sinkMessages, notFoundLogged := false }
  | some nm =>
    match accounts.find? (fun acc => acc.displayName == nm) with
    | some acc =>
      { messages := acc.inboxItems, sinkMessages := sinkMessages, notFoundLogged := false }
    | none =>
      { messages := defaultInbox, sinkMessages := sinkMessages, notFoundLogged := true }

/-- The filesystem, as fault injection: `fs dir fname = some err` means
writing file `fname` in directory `dir` raises `err`; `none` means the
write succeeds. -/
def Fs : Type := String → String → Option String

/-- A notification item as delivered to `InboxEvents.OnItemAdd`.
`attachmentsResult` models the COM access `item.Attachments` (and its
`Count`), which can itself raise. -/
structure NotifyItem where
  subject : String
  body : String
  attachmentsResult : Except String (List String)

/-- src/main.py lines 48-60: `save_attachments` writes each attachment to
`attachments_path / attachment.FileName` in order; an exception propagates
out of the loop (attachments after the failing one are not written).
Returns the (directory, filename) pairs written. -/
def save_attachments (fs : Fs) (dir : String) : List String → Except String (List (String × String))
  | [] => Except.ok []
  | a :: rest =>
    match fs dir a with
    | some err => Except.error err
    | none =>
      match save_attachments fs dir rest with
      | Except.ok ws => Except.ok ((dir, a) :: ws)
      | Except.error e => Except.error e

/-- Python's `s.replace(c, '')` for a single character `c`: remove every
occurrence of `c`. -/
def removeChar (c : Char) (s : String) : String :=
  String.mk (s.data.filter (fun x => x != c))

/-- src/main.py line 72: `item.Subject.replace(':', '').replace('/', '')`. -/
def sanitizeSubject (s : String) : String :=
  removeChar '/' (removeChar ':' s)

/-- src/main.py lines 62-75: `save_body` writes the item's body to
`no_attachments_path / (sanitizedSubject ++ ".txt")`.  Returns the
directory, filename and content written. -/
def save_body (fs : Fs) (dir : String) (item : NotifyItem) : Except String (String × String × String) :=
  let fname := sanitizeSubject item.subject ++ ".txt"
  match fs dir fname with
  | some err => Except.error err
  | none => Except.ok (dir, fname, item.body)

/-- The body of the `try` block in src/main.py lines 40-44: inspect
`item.Attachments.Count` and dispatch to `save_attachments` or
`save_body`. -/
def onItemAddCore (fs : Fs) (attachDir bodyDir : String) (item : NotifyItem) :
    Except String (List (String × String)) :=
  match item.attachmentsResult with
  | Except.error e => Except.error e
  | Except.ok atts =>
    if atts.length > 0 then
      save_attachments fs attachDir atts
    else
      match save_body fs bodyDir item with
      | Except.error e => Except.error e
      | Except.ok (d, fname, _) => Except.ok [(d, fname)]

/-- src/main.py lines 29-46: `OnItemAdd` wraps the dispatch in
`try/except Exception`, printing and swallowing any failure, so it never
propagates an exception (modelled as never returning `Except.error`). -/
def OnItemAdd (fs : Fs) (attachDir bodyDir : String) (item : NotifyItem) :
    Except String (List (String × String)) :=
  match onItemAddCore fs attachDir bodyDir item with
  | Except.ok ws => Except.ok ws
  | Except.error _ => Except.ok []

/-- Modelled from the spec: "computes a closed interval [date 00:00,
date+1 23:59] in a fixed local timezone, converts to the store's query
timezone (UTC)".  Europe/Madrid standard (winter) time is UTC+1, i.e. +60
minutes east; the interval's lower bound `D 00:00` local is `D 00:00 − 60`
in UTC. -/
def specWindowStart (d : Int) : Int := d * minutesPerDay - 60

/-- Modelled from the spec: the upper bound `D+1 23:59` Europe/Madrid
(winter, UTC+1) converted to UTC. -/
def specWindowEnd (d : Int) : Int := (d + 1) * minutesPerDay + 1439 - 60

/-- Modelled from the spec: the external store delivers items in arrival
order, so the live item collection read by `GetLast` is nondecreasing in
received time.  (The store's collection semantics are outside src/ — only
the COM calls appear there.) -/
def receivedOrdered : List Message → Bool
  | [] => true
  | [_] => true
  | a :: b :: rest =>
    (a.receivedTime ≤ b.receivedTime) && receivedOrdered (b :: rest)

theorem startFilterMin_eq (d : Int) : startFilterMin d = d * 1440 := by
  unfold startFilterMin strftimeDateOnly minutesPerDay pytzReplaceMadridOffset
  rw [Int.fdiv_eq_ediv _ (by norm_num)]
  omega

theorem endFilterMin_eq (d : Int) : endFilterMin d = (d + 1) * 1440 + 1439 := by
  unfold endFilterMin strftimeDateOnly minutesPerDay pytzReplaceMadridOffset
  rw [Int.fdiv_eq_ediv _ (by norm_num)]
  omega

theorem rt_le_getLast (l : List Message) :
    ∀ x : Message, l.getLast? = some x → receivedOrdered l = true →
      ∀ m ∈ l, m.receivedTime ≤ x.receivedTime := by
  induction l with
  | nil => intro x hx; simp at hx
  | cons a t ih =>
    intro x hx hord m hm
    cases t with
    | nil =>
      simp [List.getLast?] at hx
      simp at hm
      subst hx; subst hm
      exact le_refl _
    | cons b r =>
      have hx2 : (b :: r).getLast? = some x := by
        simpa [List.getLast?_cons_cons] using hx
      have hsplit := hord
      simp only [receivedOrdered, Bool.and_eq_true, decide_eq_true_eq] at hsplit
      rcases List.mem_cons.mp hm with hma | hmt
      · subst hma
        have hb : b.receivedTime ≤ x.receivedTime :=
          ih x hx2 hsplit.2 b (List.mem_cons_self b r)
        exact le_trans hsplit.1 hb
      · exact ih x hx2 hsplit.2 m hmt

theorem any_eq_decide_exists {α : Type} (l : List α) (f : α → Bool) :
    l.any f = decide (∃ a ∈ l, f a = true) := by
  cases hb : l.any f with
  | true =>
    have hex := List.any_eq_true.mp hb
    exact (decide_eq_true hex).symm
  | false =>
    have hnot : ¬ ∃ a ∈ l, f a = true := by
      intro hex
      have htrue : l.any f = true := List.any_eq_true.mpr hex
      rw [hb] at htrue
      exact Bool.false_ne_true htrue
    exact (decide_eq_false hnot).symm

/-- C1 counterexample: for date `D = 0` and a folder holding one message
received at `-30` minutes (23:30 UTC of the previous day, i.e. 00:30 of
day `D` in Europe/Madrid winter time), the message lies inside the
spec's Madrid-converted window `[D 00:00, D+1 23:59]`, yet
`get_emails_from_date` returns the empty list: the filter's bounds are
not the Madrid-converted instants. -/
theorem c1_counterexample :
    (specWindowStart 0 ≤ (-30 : Int) ∧ (-30 : Int) ≤ specWindowEnd 0) ∧
    get_emails_from_date (Enumeration.ok [⟨"s", "b", "x", -30, []⟩]) 0 = [] := by
  decide

/-- C1 amended: for every date `D`, on successful enumeration
`get_emails_from_date` returns exactly the messages whose received time
(UTC, minute resolution) lies in the closed interval
`[D 00:00, D+1 23:59]` taken directly in UTC.  The Madrid-to-UTC
conversion never shifts the endpoints: the filter strings hardcode the
times of day `12:00 AM` and `11:59 PM` as literal text, and the pytz
offset attached by `replace` (local mean time, west of UTC by under a
day) never changes the calendar date of the converted midnight. -/
theorem c1_date_window_amended (d : Int) (msgs : List Message) :
    get_emails_from_date (Enumeration.ok msgs) d =
      (msgs.filter (fun m =>
        decide (d * 1440 ≤ m.receivedTime ∧ m.receivedTime ≤ (d + 1) * 1440 + 1439))).map toRecord := by
  have hred : get_emails_from_date (Enumeration.ok msgs) d =
      (msgs.filter (fun m =>
        startFilterMin d ≤ m.receivedTime && m.receivedTime ≤ endFilterMin d)).map toRecord := rfl
  rw [hred]
  congr 1
  apply List.filter_congr
  intro m _
  rw [startFilterMin_eq, endFilterMin_eq]
  simp

/-- C2: for a folder whose live item collection is nonempty (and in
arrival order, i.e. nondecreasing received times, as the external store
delivers items), `get_last_email` returns the subject, body and received
time of a message with the maximum received time; for an empty folder,
and for an unreachable store, it returns the empty sentinel instead of
throwing. -/
theorem c2_last_email (msgs : List Message) (hne : msgs ≠ [])
    (hord : receivedOrdered msgs = true) :
    (∃ m, msgs.getLast? = some m ∧ m ∈ msgs ∧
      (∀ m2 ∈ msgs, m2.receivedTime ≤ m.receivedTime) ∧
      get_last_email (Enumeration.ok msgs) =
        [("subject", FieldValue.str m.subject),
         ("body", FieldValue.str m.body),
         ("received_time", FieldValue.time m.receivedTime)]) ∧
    get_last_email (Enumeration.ok []) =
      [("subject", FieldValue.str ""), ("body", FieldValue.str "")] ∧
    (∀ seen e, get_last_email (Enumeration.failAfter seen e) =
      [("subject", FieldValue.str ""), ("body", FieldValue.str "")]) := by
  refine ⟨?_, rfl, fun seen e => rfl⟩
  have hsome : msgs.getLast? = some (msgs.getLast hne) :=
    List.getLast?_eq_getLast_of_ne_nil hne
  refine ⟨msgs.getLast hne, hsome, List.getLast_mem hne, ?_, ?_⟩
  · exact rt_le_getLast msgs _ hsome hord
  · simp [get_last_email, hsome]

/-- Witness for C2 at a concrete two-message folder. -/
theorem c2_last_email_witness :
    (∃ m, ([⟨"s1", "b1", "e1", 5, []⟩, ⟨"s2", "b2", "e2", 9, []⟩] : List Message).getLast? = some m ∧
      m ∈ ([⟨"s1", "b1", "e1", 5, []⟩, ⟨"s2", "b2", "e2", 9, []⟩] : List Message) ∧
      (∀ m2 ∈ ([⟨"s1", "b1", "e1", 5, []⟩, ⟨"s2", "b2", "e2", 9, []⟩] : List Message),
        m2.receivedTime ≤ m.receivedTime) ∧
      get_last_email (Enumeration.ok [⟨"s1", "b1", "e1", 5, []⟩, ⟨"s2", "b2", "e2", 9, []⟩]) =
        [("subject", FieldValue.str m.subject),
         ("body", FieldValue.str m.body),
         ("received_time", FieldValue.time m.receivedTime)]) ∧
    get_last_email (Enumeration.ok []) =
      [("subject", FieldValue.str ""), ("body", FieldValue.str "")] ∧
    (∀ seen e, get_last_email (Enumeration.failAfter seen e) =
      [("subject", FieldValue.str ""), ("body", FieldValue.str "")]) :=
  c2_last_email [⟨"s1", "b1", "e1", 5, []⟩, ⟨"s2", "b2", "e2", 9, []⟩] (by decide) (by decide)

/-- C3 counterexample: when enumeration fails after yielding one message
with a matching attachment, `get_emails_with_attachments` returns that
partial result, not the empty list the claim requires. -/
theorem c3_counterexample :
    get_emails_with_attachments
      (Enumeration.failAfter [⟨"s", "b", "x", 0, ["a.pdf"]⟩] "enumeration failed") "pdf" ≠ [] := by
  decide

/-- C3 amended: on a query failure, `get_emails_from_date` returns the
empty list, but `get_emails_with_attachments` returns the partial result
accumulated before the failure (its accumulator is created before the
`try` block and returned after the handler), which is empty only when
nothing matched before the failure. -/
theorem c3_query_failure_amended (seen : List Message) (err : String) :
    (∀ d, get_emails_from_date (Enumeration.failAfter seen err) d = []) ∧
    (∀ extension, get_emails_with_attachments (Enumeration.failAfter seen err) extension =
      (seen.filter (fun m => hasMatchingAttachment (normalizeExtension extension) m)).map toRecord) :=
  ⟨fun _ => rfl, fun _ => rfl⟩

/-- C4 counterexample: the sink strips only `':'` and `'/'` from the
subject `"Invoice: Q3/2024"`; the space after the colon survives, so the
file written is `"Invoice Q32024.txt"`, not `"InvoiceQ32024.txt"`. -/
theorem c4_counterexample :
    save_body (fun _ _ => none) "no_attachments" ⟨"Invoice: Q3/2024", "body text", Except.ok []⟩ =
      Except.ok ("no_attachments", "Invoice Q32024.txt", "body text") ∧
    "Invoice Q32024.txt" ≠ "InvoiceQ32024.txt" := by
  exact ⟨rfl, by decide⟩

/-- C4 amended: for a notification item with subject `"Invoice: Q3/2024"`
and no attachments, the sink writes the body to the no-attachments
directory under the name `"Invoice Q32024.txt"` (colon and slash
stripped, the space retained). -/
theorem c4_body_filename_amended (attachDir bodyDir bodyText : String) :
    OnItemAdd (fun _ _ => none) attachDir bodyDir ⟨"Invoice: Q3/2024", bodyText, Except.ok []⟩ =
      Except.ok [(bodyDir, "Invoice Q32024.txt")] :=
  rfl

/-- C5: for every extension and message list, the attachment query
returns exactly one record per message having at least one attachment
whose lower-cased filename ends with the lower-cased normalized
extension — i.e. membership is governed by the case-insensitive suffix
match, and each qualifying message contributes at most one record even
when several of its attachments match. -/
theorem c5_attachment_filter (extension : String) (msgs : List Message) :
    get_emails_with_attachments (Enumeration.ok msgs) extension =
      (msgs.filter (fun m => decide (∃ a ∈ m.attachments,
        endswith (lower a) (lower (normalizeExtension extension)) = true))).map toRecord := by
  have hred : get_emails_with_attachments (Enumeration.ok msgs) extension =
      (msgs.filter (fun m => hasMatchingAttachment (normalizeExtension extension) m)).map toRecord := rfl
  rw [hred]
  congr 1
  apply List.filter_congr
  intro m _
  unfold hasMatchingAttachment
  cases hatt : m.attachments with
  | nil => simp [hatt]
  | cons a t =>
    have hlen : (a :: t).length > 0 := by simp
    rw [if_pos hlen]
    exact any_eq_decide_exists (a :: t) _

/-- C6 counterexample: with a configured account `"Work"` whose inbox
holds one message, initializing with that account name leaves the event
sink registered on the *default* inbox's collection (registration happens
before the account lookup replaces the working folder), so the collection
the queries read differs from the one the sink watches. -/
theorem c6_counterexample :
    (outlookInit [] [⟨"Work", [⟨"s", "b", "e", 1, []⟩]⟩] (some "Work")).messages ≠
      (outlookInit [] [⟨"Work", [⟨"s", "b", "e", 1, []⟩]⟩] (some "Work")).sinkMessages := by
  decide

/-- C6 amended: the notification sink is always registered against the
default inbox's item collection, for every accountName argument; when a
named account matches, the query operations read that account's inbox
collection while the sink stays bound to the default inbox's collection
(they coincide only when no replacement happens). -/
theorem c6_sink_registration_amended (defaultInbox : List Message)
    (accounts : List StoreAccount) (nm : String) (acc : StoreAccount)
    (hfind : accounts.find? (fun a => a.displayName == nm) = some acc) :
    (∀ a, (outlookInit defaultInbox accounts a).sinkMessages = defaultInbox) ∧
    (outlookInit defaultInbox accounts (some nm)).messages = acc.inboxItems := by
  constructor
  · intro a
    cases a with
    | none => rfl
    | some nm2 =>
      simp only [outlookInit]
      cases accounts.find? (fun x => x.displayName == nm2) with
      | none => rfl
      | some acc2 => rfl
  · simp [outlookInit, hfind]

/-- Witness for C6's amended theorem at a concrete account list. -/
theorem c6_sink_registration_amended_witness :
    (∀ a, (outlookInit [] [⟨"Work", [⟨"s", "b", "e", 1, []⟩]⟩] a).sinkMessages = []) ∧
    (outlookInit [] [⟨"Work", [⟨"s", "b", "e", 1, []⟩]⟩] (some "Work")).messages =
      (⟨"Work", [⟨"s", "b", "e", 1, []⟩]⟩ : StoreAccount).inboxItems :=
  c6_sink_registration_amended [] [⟨"Work", [⟨"s", "b", "e", 1, []⟩]⟩] "Work"
    ⟨"Work", [⟨"s", "b", "e", 1, []⟩]⟩ (by decide)

/-- C7: `OnItemAdd` never propagates an exception: whatever the
filesystem faults and however the attachment inspection behaves, it
returns normally (modelled: always `Except.ok`), so the notification is
handled and the next one can be processed. -/
theorem c7_on_item_add_total (fs : Fs) (attachDir bodyDir : String) (item : NotifyItem) :
    ∃ ws, OnItemAdd fs attachDir bodyDir item = Except.ok ws := by
  unfold OnItemAdd
  cases onItemAddCore fs attachDir bodyDir item with
  | ok ws => exact ⟨ws, rfl⟩
  | error e => exact ⟨[], rfl⟩

/-- C8: for every extension that does not begin with `'.'`, the
attachment query returns the same list as when called with `'.'`
prepended: normalization makes the two calls coincide. -/
theorem c8_leading_dot_invariant (extension : String) (enum : Enumeration)
    (h : startswithDot extension = false) :
    get_emails_with_attachments enum extension =
      get_emails_with_attachments enum ("." ++ extension) := by
  have hdata : ("." ++ extension).data = '.' :: extension.data := by
    rw [String.data_append]
    rfl
  have hdot : startswithDot ("." ++ extension) = true := by
    unfold startswithDot
    rw [hdata]
    rfl
  have hnorm : normalizeExtension ("." ++ extension) = normalizeExtension extension := by
    unfold normalizeExtension
    rw [h, hdot]
    simp
  unfold get_emails_with_attachments
  rw [hnorm]

/-- Witness for C8 at extension `"pdf"` and a one-message folder. -/
theorem c8_leading_dot_invariant_witness :
    startswithDot "pdf" = false ∧
    get_emails_with_attachments (Enumeration.ok [⟨"s", "b", "x", 0, ["a.pdf", "b.PDF"]⟩]) "pdf" =
      get_emails_with_attachments (Enumeration.ok [⟨"s", "b", "x", 0, ["a.pdf", "b.PDF"]⟩]) (".pdf") :=
  ⟨by decide, by
    have h := c8_leading_dot_invariant "pdf"
      (Enumeration.ok [⟨"s", "b", "x", 0, ["a.pdf", "b.PDF"]⟩]) (by decide)
    simpa using h⟩

/-- C9: when the supplied account name matches no configured account's
display name, initialization logs the not-found condition, keeps the
default inbox as the working folder, and every query operation behaves
exactly as it would against the default folder. -/
theorem c9_account_not_found (defaultInbox : List Message)
    (accounts : List StoreAccount) (nm : String)
    (h : ∀ acc ∈ accounts, acc.displayName ≠ nm) :
    (outlookInit defaultInbox accounts (some nm)).messages = defaultInbox ∧
    (outlookInit defaultInbox accounts (some nm)).notFoundLogged = true ∧
    (∀ d, get_emails_from_date
        (Enumeration.ok (outlookInit defaultInbox accounts (some nm)).messages) d =
      get_emails_from_date (Enumeration.ok defaultInbox) d) ∧
    (∀ extension, get_emails_with_attachments
        (Enumeration.ok (outlookInit defaultInbox accounts (some nm)).messages) extension =
      get_emails_with_attachments (Enumeration.ok defaultInbox) extension) ∧
    get_last_email (Enumeration.ok (outlookInit defaultInbox accounts (some nm)).messages) =
      get_last_email (Enumeration.ok defaultInbox) := by
  have hfind : accounts.find? (fun acc => acc.displayName == nm) = none := by
    rw [List.find?_eq_none]
    intro x hx
    simp only [beq_iff_eq]
    exact h x hx
  have hmsg : (outlookInit defaultInbox accounts (some nm)).messages = defaultInbox := by
    simp [outlookInit, hfind]
  have hlog : (outlookInit defaultInbox accounts (some nm)).notFoundLogged = true := by
    simp [outlookInit, hfind]
  exact ⟨hmsg, hlog, fun d => by rw [hmsg], fun e => by rw [hmsg], by rw [hmsg]⟩

/-- Witness for C9: account name `"Personal"` matching neither configured
account. -/
theorem c9_account_not_found_witness :
    (outlookInit [⟨"s", "b", "e", 1, []⟩] [⟨"Work", []⟩] (some "Personal")).messages =
      [⟨"s", "b", "e", 1, []⟩] ∧
    (outlookInit [⟨"s", "b", "e", 1, []⟩] [⟨"Work", []⟩] (some "Personal")).notFoundLogged = true ∧
    (∀ d, get_emails_from_date
        (Enumeration.ok (outlookInit [⟨"s", "b", "e", 1, []⟩] [⟨"Work", []⟩] (some "Personal")).messages) d =
      get_emails_from_date (Enumeration.ok [⟨"s", "b", "e", 1, []⟩]) d) ∧
    (∀ extension, get_emails_with_attachments
        (Enumeration.ok (outlookInit [⟨"s", "b", "e", 1, []⟩] [⟨"Work", []⟩] (some "Personal")).messages) extension =
      get_emails_with_attachments (Enumeration.ok [⟨"s", "b", "e", 1, []⟩]) extension) ∧
    get_last_email (Enumeration.ok (outlookInit [⟨"s", "b", "e", 1, []⟩] [⟨"Work", []⟩] (some "Personal")).messages) =
      get_last_email (Enumeration.ok [⟨"s", "b", "e", 1, []⟩]) :=
  c9_account_not_found [⟨"s", "b", "e", 1, []⟩] [⟨"Work", []⟩] "Personal" (by decide)

/-- C10: whenever `get_last_email` fails — empty folder or unreachable
store — the sentinel is the dictionary with exactly the keys
`"subject"` and `"body"`, each mapped to the empty string; no
`"received_time"` key is present. -/
theorem c10_sentinel_shape :
    get_last_email (Enumeration.ok []) =
      [("subject", FieldValue.str ""), ("body", FieldValue.str "")] ∧
    (∀ seen e, get_last_email (Enumeration.failAfter seen e) =
      [("subject", FieldValue.str ""), ("body", FieldValue.str "")]) ∧
    (get_last_email (Enumeration.ok [])).map Prod.fst = ["subject", "body"] :=
  ⟨rfl, fun _ _ => rfl, rfl⟩
